import Mathlib

/-
  Verification of the httpregistry expectation-matching engine.

  Shallow embedding of the current sources (the second, named, version of
  registry.go, the Request version with lowercase fields, and the Response
  version with a name field), together with the finite response source of
  match.go.  Go maps from string to string are embedded as association
  lists with unique keys; the Go regexp engine is abstracted by a boolean
  parameter rmatch taking the pattern source and the candidate string.
  Request bodies are byte sequences embedded as String (byte equality is
  string equality); the consumable body stream of an incoming request is
  embedded as the string of bytes that remain unread.
-/

namespace Httpregistry

/-- Lookup in an association list, returning none when the key is absent. -/
def lookupAssoc : List (String × String) → String → Option String
  | [], _ => none
  | kv :: rest, k => if kv.fst = k then some kv.snd else lookupAssoc rest k

/-- Insert or replace a key in an association list, mirroring assignment into a Go map. -/
def setAssoc : List (String × String) → String → String → List (String × String)
  | [], k, v => [(k, v)]
  | kv :: rest, k, v => if kv.fst = k then (k, v) :: rest else kv :: setAssoc rest k v

/-- Every binding of the first list is present in the second with the same value. -/
def mapsSubset (a b : List (String × String)) : Bool :=
  a.all (fun kv => decide (lookupAssoc b kv.fst = some kv.snd))

/-- Extensional equality of two embedded Go maps, mirroring reflect.DeepEqual,
which compares maps by key set and values, not by any order. -/
def mapsEqual (a b : List (String × String)) : Bool :=
  mapsSubset a b && mapsSubset b a

/-- The Request pattern type of the current request version (lowercase fields:
name, url, method, headers, body, urlAsRegex).  The compiled regex field
urlAsRegex is embedded as the source string of the pattern it was compiled from. -/
structure Request where
  name : String
  url : String
  method : String
  headers : List (String × String)
  body : String
  urlAsRegex : String
deriving Repr, DecidableEq

/-- newRequestWithName: the default pattern, url and method empty, urlAsRegex
compiled from the catch-all pattern, empty headers map and empty body. -/
def newRequestWithName (name : String) : Request :=
  { name := name, url := "", method := "", headers := [], body := "", urlAsRegex := ".+" }

/-- NewRequest creates the default pattern with an empty name. -/
def NewRequest : Request := newRequestWithName ""

/-- Request.WithURL sets url and recompiles urlAsRegex from it. -/
def Request.WithURL (r : Request) (u : String) : Request :=
  { r with url := u, urlAsRegex := u }

/-- Request.WithMethod sets the method field. -/
def Request.WithMethod (r : Request) (m : String) : Request :=
  { r with method := m }

/-- Request.WithBody sets the body field. -/
def Request.WithBody (r : Request) (b : String) : Request :=
  { r with body := b }

/-- Request.WithName sets the name field. -/
def Request.WithName (r : Request) (n : String) : Request :=
  { r with name := n }

/-- Request.Equal compares url, method, headers, body and urlAsRegex by deep
equality; the name field is not compared. -/
def Request.Equal (r r2 : Request) : Bool :=
  decide (r.url = r2.url) && decide (r.method = r2.method) &&
    mapsEqual r.headers r2.headers && decide (r.body = r2.body) &&
    decide (r.urlAsRegex = r2.urlAsRegex)

/-- The reasons recorded in a miss, from misses.go. -/
inductive WhyMissed where
  | pathDoesNotMatch
  | methodDoesNotMatch
  | headerDoesNotMatch
  | outOfResponses
deriving Repr, DecidableEq

/-- The user-facing text of each miss reason, from the constants in misses.go. -/
def WhyMissed.message : WhyMissed → String
  | .pathDoesNotMatch => "the path does not match"
  | .methodDoesNotMatch => "the method does not match"
  | .headerDoesNotMatch => "the header does not match"
  | .outOfResponses => "the route matches but there was no response available"

/-- A miss pairs the pattern of the candidate expectation with the reason it
was not satisfied. -/
structure Miss where
  request : Request
  why : WhyMissed
deriving Repr, DecidableEq

/-- newMiss builds a miss from the pattern of a registered match; the Go
version takes the match and stores match.Request(). -/
def newMiss (request : Request) (why : WhyMissed) : Miss :=
  { request := request, why := why }

/-- Miss.String from misses.go: the verb form of fmt.Sprintf with the pattern
rendered through Request.String, which returns the name field. -/
def Miss.render (m : Miss) : String :=
  m.request.name ++ " missed because " ++ m.why.message

/-- An incoming http.Request as the engine observes it: URL, method, header
map, and the body stream, embedded as the bytes that remain unread. -/
structure HTTPRequest where
  url : String
  method : String
  headers : List (String × String)
  body : String
deriving Repr, DecidableEq

/-- io.ReadAll on the body stream: yields all remaining bytes and leaves the
stream empty. -/
def readAll (r : HTTPRequest) : String × HTTPRequest :=
  (r.body, { r with body := "" })

/-- Header.Get of net/http returns the value for the key or the empty string
when absent. -/
def headerGet (hs : List (String × String)) (k : String) : String :=
  match lookupAssoc hs k with
  | some v => v
  | none => ""

/-- cloneHTTPRequest from utils.go: reads the whole remaining body, then hands
back the original with its stream replaced by a fresh readable buffer over the
read bytes, together with a clone whose stream is a second fresh buffer over
the same bytes.  Result: (updated original, clone). -/
def cloneHTTPRequest (req : HTTPRequest) : HTTPRequest × HTTPRequest :=
  let buf := (readAll req).fst
  let afterRead := (readAll req).snd
  let newRequest : HTTPRequest := { afterRead with body := buf }
  let original : HTTPRequest := { afterRead with body := buf }
  (original, newRequest)

/-- The current Response version (lowercase fields with a name). -/
structure Response where
  name : String
  statusCode : Nat
  body : String
  headers : List (String × String)
deriving Repr, DecidableEq

/-- newResponseWithName: status 200, empty body and headers. -/
def newResponseWithName (name : String) : Response :=
  { name := name, statusCode := 200, body := "", headers := [] }

/-- NewResponse creates the default response with an empty name. -/
def NewResponse : Response := newResponseWithName ""

/-- Response.WithStatus sets the status code. -/
def Response.WithStatus (res : Response) (code : Nat) : Response :=
  { res with statusCode := code }

/-- Response.WithBody sets the body. -/
def Response.WithBody (res : Response) (b : String) : Response :=
  { res with body := b }

/-- The OkResponse constant: a named response with status 200. -/
def OkResponse : Response :=
  (newResponseWithName "httpregistry.OkResponse").WithStatus 200

/-- The state of the net/http ResponseWriter as the handler drives it.
Headers mutated after WriteHeader has fired are kept in the headers map but
are never transmitted; sentHeaders snapshots the map at the moment the status
line is written, which is what the client actually receives. -/
structure ResponseWriter where
  headers : List (String × String)
  sentStatus : Option Nat
  sentHeaders : List (String × String)
  body : String
deriving Repr, DecidableEq

/-- A fresh writer, before anything has been written. -/
def ResponseWriter.empty : ResponseWriter :=
  { headers := [], sentStatus := none, sentHeaders := [], body := "" }

/-- Header().Set on the writer map; only observable to the client if a
WriteHeader call happens afterwards. -/
def headerSet (w : ResponseWriter) (k v : String) : ResponseWriter :=
  { w with headers := setAssoc w.headers k v }

/-- Header().Add on the writer map; the engine only adds distinct keys, so
append-or-replace is an adequate embedding. -/
def headerAdd (w : ResponseWriter) (k v : String) : ResponseWriter :=
  { w with headers := setAssoc w.headers k v }

/-- WriteHeader: the first call freezes the status code and the headers that
will be sent; later calls are ignored. -/
def writeHeader (w : ResponseWriter) (code : Nat) : ResponseWriter :=
  match w.sentStatus with
  | some _ => w
  | none => { w with sentStatus := some code, sentHeaders := w.headers }

/-- Write appends to the body; if no status was written yet net/http sends an
implicit 200 first. -/
def write (w : ResponseWriter) (s : String) : ResponseWriter :=
  let w2 := match w.sentStatus with
    | some _ => w
    | none => writeHeader w 200
  { w2 with body := w2.body ++ s }

/-- Response.serveResponse: add every response header, write the status code,
then write the body. -/
def serveResponse (res : Response) (w : ResponseWriter) : ResponseWriter :=
  let w1 := res.headers.foldl (fun acc kv => headerAdd acc kv.fst kv.snd) w
  let w2 := writeHeader w1 res.statusCode
  write w2 res.body

/-- The error returned by a response source when the queue is empty,
errNoNextResponseFound in match.go. -/
inductive MatchError where
  | noNextResponseFound
deriving Repr, DecidableEq

/-- Modelled from the spec: the consumableResponsesMatch bound pair used by the
current registry is not among the sources, only its callers are; following
section 4.2 (a finite ordered queue whose next() returns the head and advances,
failing with the exhaustion signal once empty) and section 4.3 (the archived
history of deep request copies, grown by RecordMatch).  The consumption
behaviour agrees with the multipleResponsesMatch of match.go. -/
structure RegMatch where
  request : Request
  responses : List Response
  archived : List HTTPRequest
deriving Repr, DecidableEq

/-- Modelled from the spec: NextResponse of the consumable source pops the head
of the queue, or reports the exhaustion error leaving the state unchanged. -/
def RegMatch.NextResponse (m : RegMatch) : Except MatchError Response × RegMatch :=
  match m.responses with
  | [] => (Except.error MatchError.noNextResponseFound, m)
  | head :: tail => (Except.ok head, { m with responses := tail })

/-- Modelled from the spec: RecordMatch archives a deep, independently readable
copy of the incoming request (via cloneHTTPRequest, which also refreshes the
body stream of the original); returns the updated match and the updated
original request. -/
def RegMatch.RecordMatch (m : RegMatch) (r : HTTPRequest) : RegMatch × HTTPRequest :=
  let cloned := cloneHTTPRequest r
  ({ m with archived := m.archived ++ [cloned.snd] }, cloned.fst)

/-- NumberOfCalls of a match: the length of the archived history. -/
def RegMatch.NumberOfCalls (m : RegMatch) : Nat := m.archived.length

/-- The multipleResponsesMatch of match.go: a finite response queue that also
archives a clone of the triggering request inside NextResponse. -/
structure MultipleResponsesMatch where
  request : Request
  responses : List Response
  matchedRequests : List HTTPRequest
deriving Repr, DecidableEq

/-- NextResponse of match.go (lines 95 to 106): with an empty queue the
exhaustion error is returned and nothing changes; otherwise a clone of the
triggering request is archived, the head is removed from the queue and
returned. -/
def MultipleResponsesMatch.NextResponse (m : MultipleResponsesMatch) (req : HTTPRequest) :
    Except MatchError Response × MultipleResponsesMatch :=
  match m.responses with
  | [] => (Except.error MatchError.noNextResponseFound, m)
  | head :: tail =>
      (Except.ok head,
        { m with matchedRequests := m.matchedRequests ++ [(cloneHTTPRequest req).snd], responses := tail })

/-- doesRegisteredMatchMatchIncomingRequest, current version (registry.go lines
666 to 721).  Returns the verdict, the misses explaining a failure, and the
request as left behind (its body stream is consumed when the pattern specifies
a body).  The control flow mirrors the source: each specified dimension that
passes returns true immediately; a failing URL or method appends one miss and
falls through; a failing body appends nothing; the header loop appends its
misses to the outer list while the emptiness test reads the never-extended
headersMisses list, exactly as in the source. -/
def doesRegisteredMatchMatchIncomingRequest (rmatch : String → String → Bool)
    (registered : Request) (r : HTTPRequest) : Bool × List Miss × HTTPRequest :=
  -- The default request matches everything so no point in checking further
  if registered.Equal NewRequest then (true, [], r) else
  let expectedURL := registered.url
  let expectedURLAsRegex := registered.urlAsRegex
  let expectedMethod := registered.method
  let expectedHeaders := registered.headers
  let expectedBody := registered.body
  let misses : List Miss := []
  -- URL dimension: an early successful return on a regex match, else a path miss
  let urlStage : Option (List Miss) :=
    if expectedURL ≠ "" then
      if rmatch expectedURLAsRegex r.url then none
      else some (misses ++ [newMiss registered WhyMissed.pathDoesNotMatch])
    else some misses
  match urlStage with
  | none => (true, [], r)
  | some misses1 =>
  -- method dimension
  let methodStage : Option (List Miss) :=
    if expectedMethod ≠ "" then
      if expectedMethod = r.method then none
      else some (misses1 ++ [newMiss registered WhyMissed.methodDoesNotMatch])
    else some misses1
  match methodStage with
  | none => (true, [], r)
  | some misses2 =>
  -- body dimension: io.ReadAll consumes the stream; a mismatch records no miss
  let bodyStage : Option (List Miss) × HTTPRequest :=
    if expectedBody.length > 0 then
      let readResult := readAll r
      if expectedBody = readResult.fst then (none, readResult.snd)
      else (some misses2, readResult.snd)
    else (some misses2, r)
  match bodyStage with
  | (none, r2) => (true, [], r2)
  | (some misses3, r2) =>
  -- header dimension, with the headersMisses list of the source left empty
  if expectedHeaders.length > 0 then
    let headersMisses : List Miss := []
    let misses4 := misses3 ++
      (expectedHeaders.filter (fun kv =>
        let value := headerGet r2.headers kv.fst
        value = "" || value ≠ kv.snd)).map
        (fun _ => newMiss registered WhyMissed.headerDoesNotMatch)
    if headersMisses.length = 0 then (true, [], r2)
    else (false, misses4 ++ headersMisses, r2)
  else (false, misses3, r2)

/-- The pure matching verdict of a pattern on a request, used to state the
claims: the boolean component of the matcher run on the request as given. -/
def matchesIncomingRequest (rmatch : String → String → Bool)
    (registered : Request) (r : HTTPRequest) : Bool :=
  (doesRegisteredMatchMatchIncomingRequest rmatch registered r).fst

/-- The registry: the ordered expectations and the miss log of the last
dispatch.  The testing sink is elided; its messages never feed back into the
engine. -/
structure RegistryState where
  regMatches : List RegMatch
  misses : List Miss
deriving Repr, DecidableEq

/-- Registry.Why, current version (registry.go lines 779 to 789): the misses
rendered through Miss.String and joined with newlines; empty log gives the
empty string. -/
def Why (reg : RegistryState) : String :=
  String.intercalate "\n" (reg.misses.map Miss.render)

/-- The loop inside the GetServer handler (registry.go lines 729 to 747):
walk the expectations in order; on a predicate failure append the misses and
continue; on a match ask for the next response, and when exhausted append an
out-of-responses miss and continue; on success record the match, serve the
response and stop.  Returns the updated expectations, the misses accumulated
by this walk, the request as left behind, the writer, and whether a response
was served. -/
def dispatchLoop (rmatch : String → String → Bool) (ms : List RegMatch)
    (r : HTTPRequest) (w : ResponseWriter) :
    List RegMatch × List Miss × HTTPRequest × ResponseWriter × Bool :=
  match ms with
  | [] => ([], [], r, w, false)
  | m :: rest =>
    let verdict := doesRegisteredMatchMatchIncomingRequest rmatch m.request r
    if verdict.fst = false then
      let later := dispatchLoop rmatch rest verdict.snd.snd w
      (m :: later.fst, verdict.snd.fst ++ later.snd.fst, later.snd.snd.fst,
        later.snd.snd.snd.fst, later.snd.snd.snd.snd)
    else
      match m.NextResponse with
      | (Except.error _, m2) =>
        let later := dispatchLoop rmatch rest verdict.snd.snd w
        (m2 :: later.fst,
          newMiss m.request WhyMissed.outOfResponses :: later.snd.fst,
          later.snd.snd.fst, later.snd.snd.snd.fst, later.snd.snd.snd.snd)
      | (Except.ok res, m2) =>
        let recorded := m2.RecordMatch verdict.snd.snd
        (recorded.fst :: rest, [], recorded.snd, serveResponse res w, true)

/-- The GetServer handler for one dispatch (registry.go lines 725 to 760):
reset the miss log, run the loop, and when nothing served render the fatal
diagnostics: WriteHeader 500, then a Content-Type header set only after the
status was already written, then the Why text as body.  The Errorf calls on
the sink are elided. -/
def handleRequest (rmatch : String → String → Bool) (reg : RegistryState)
    (r : HTTPRequest) (w : ResponseWriter) : RegistryState × ResponseWriter :=
  let walk := dispatchLoop rmatch reg.regMatches r w
  let regOut : RegistryState := { regMatches := walk.fst, misses := walk.snd.fst }
  if walk.snd.snd.snd.snd then (regOut, walk.snd.snd.snd.fst)
  else
    let w1 := writeHeader walk.snd.snd.snd.fst 500
    let w2 := headerSet w1 "Content-Type" "application/json"
    let w3 := write w2 (Why regOut)
    (regOut, w3)

/-- Registry.CheckAllResponsesAreConsumed (registry.go lines 767 to 774):
for every match draw the next response; when one is available report one
message naming the pattern and the response.  Returns the reported messages
and the registry matches as the draw left them. -/
def CheckAllResponsesAreConsumed : List RegMatch → List String × List RegMatch
  | [] => ([], [])
  | m :: rest =>
    let drawn := m.NextResponse
    let later := CheckAllResponsesAreConsumed rest
    match drawn.fst with
    | Except.ok response =>
        (("request " ++ m.request.name ++ " has " ++ response.name ++
          " as unused response") :: later.fst, drawn.snd :: later.snd)
    | Except.error _ => (later.fst, drawn.snd :: later.snd)

/-- Registry.GetMatchesForRequest (registry.go lines 609 to 624): find the
first match whose pattern equals the given one and hand back clones of its
archived requests, so that the bodies can be read again on later calls; the
cloning also refreshes the streams of the archived copies themselves.
Returns the clones and the registry matches as cloning left them. -/
def GetMatchesForRequest (ms : List RegMatch) (r : Request) :
    List HTTPRequest × List RegMatch :=
  match ms with
  | [] => ([], [])
  | m :: rest =>
    if m.request.Equal r then
      let pairs := m.archived.map cloneHTTPRequest
      (pairs.map Prod.snd, { m with archived := pairs.map Prod.fst } :: rest)
    else
      let later := GetMatchesForRequest rest r
      (later.fst, m :: later.snd)

/-!
The builder view of the Request pattern with the Go reference semantics of its
headers map: a Request value copies its scalar fields on assignment while the
headers field is a reference into a heap of maps, shared between a value and
the values derived from it.  This is the model on which the value-semantics
claim about the builder helpers is settled.
-/

/-- A Request as a Go value: scalar fields plus a reference to a headers map
living in a heap. -/
structure BRequest where
  name : String
  url : String
  method : String
  headersRef : Nat
  body : String
  urlAsRegex : String
deriving Repr, DecidableEq

/-- The heap of headers maps; the reference of a request indexes this list. -/
structure Heap where
  maps : List (List (String × String))
deriving Repr, DecidableEq

/-- The headers visible through a request: the map its reference points to. -/
def headersVisible (h : Heap) (r : BRequest) : List (String × String) :=
  h.maps.getD r.headersRef []

/-- NewRequest in the builder view: make(map[string]string) allocates a fresh
empty map, so a fresh slot is appended to the heap. -/
def bNewRequest (h : Heap) : BRequest × Heap :=
  ({ name := "", url := "", method := "", headersRef := h.maps.length,
     body := "", urlAsRegex := ".+" },
   { maps := h.maps ++ [[]] })

/-- Request.WithHeader (request version, lines 77 to 80): the value receiver
copies the struct, but the assignment r.headers[header] = value writes through
the shared map reference; the returned request carries the same reference. -/
def bWithHeader (h : Heap) (r : BRequest) (k v : String) : BRequest × Heap :=
  ({ r with headersRef := r.headersRef },
   { maps := h.maps.set r.headersRef (setAssoc (headersVisible h r) k v) })

/-- Request.WithMethod in the builder view: a pure struct-field update, no heap
access. -/
def bWithMethod (r : BRequest) (m : String) : BRequest :=
  { r with method := m }

/-- A concrete instantiation of the abstract regex matcher, used to evaluate
the engine on closed inputs: the pattern source matches exactly itself. -/
def rmatchEq : String → String → Bool := fun p s => decide (p = s)

/-!  Helper lemmas shared by the claim proofs. -/

/-- Cloning yields the request itself in this embedding: the read bytes are
poured back into both streams, so original and clone coincide with the input. -/
theorem cloneHTTPRequest_self (c : HTTPRequest) : cloneHTTPRequest c = (c, c) := rfl

/-- The first projection of cloning is the identity in this embedding. -/
theorem clone_fst_comp : Prod.fst ∘ cloneHTTPRequest = id := funext fun _ => rfl

/-- The second projection of cloning is the identity in this embedding. -/
theorem clone_snd_comp : Prod.snd ∘ cloneHTTPRequest = id := funext fun _ => rfl

/-- GetMatchesForRequest leaves the registry matches unchanged: the clones it
creates refresh each archived stream with exactly the bytes it already held. -/
theorem GetMatchesForRequest_snd (ms : List RegMatch) (r : Request) :
    (GetMatchesForRequest ms r).snd = ms := by
  induction ms with
  | nil => rfl
  | cons m rest ih =>
      unfold GetMatchesForRequest
      by_cases h : m.request.Equal r = true
      · simp only [h, if_pos]
        simp only [List.map_map, clone_fst_comp, List.map_id]
      · simp only [Bool.not_eq_true] at h
        simp [h, ih]

/-- The clones handed back by GetMatchesForRequest are the archived requests of
the first match whose pattern equals the query. -/
theorem GetMatchesForRequest_fst (ms : List RegMatch) (r : Request)
    (i : Nat) (hi : i < ms.length)
    (hEq : (ms.get ⟨i, hi⟩).request.Equal r = true)
    (hFirst : ∀ j (hj : j < i),
      (ms.get ⟨j, Nat.lt_trans hj hi⟩).request.Equal r = false) :
    (GetMatchesForRequest ms r).fst = (ms.get ⟨i, hi⟩).archived := by
  induction ms generalizing i with
  | nil => exact absurd hi (Nat.not_lt_zero i)
  | cons m rest ih =>
      cases i with
      | zero =>
          simp only [List.get] at hEq
          unfold GetMatchesForRequest
          simp only [hEq, if_pos, List.map_map, clone_snd_comp, List.map_id, List.get]
      | succ j =>
          have h0 : m.request.Equal r = false := hFirst 0 (Nat.succ_pos j)
          unfold GetMatchesForRequest
          simp only [h0, Bool.false_eq_true, if_false]
          have hj : j < rest.length := Nat.lt_of_succ_lt_succ hi
          have := ih j hj (by simpa using hEq)
            (fun k hk => by simpa using hFirst (k + 1) (Nat.succ_lt_succ hk))
          simpa using this

/-- Claim C3: a finite response sequence created with responses A, B, C hands
out exactly A, then B, then C on three successive NextResponse calls; any
NextResponse call on an empty sequence returns the no-next-response error and
leaves the state unchanged; on a non-empty sequence the head and only the head
is drawn, so responses are never reordered and never skipped. -/
theorem multipleResponsesMatch_fifo (q q2 q3 : Request) (A B C head : Response)
    (tail : List Response) (archived archived2 archived3 : List HTTPRequest)
    (r1 r2 r3 req req2 : HTTPRequest) :
    (let m0 : MultipleResponsesMatch :=
      { request := q, responses := [A, B, C], matchedRequests := archived }
     let s1 := m0.NextResponse r1
     let s2 := s1.snd.NextResponse r2
     let s3 := s2.snd.NextResponse r3
     s1.fst = Except.ok A ∧ s2.fst = Except.ok B ∧ s3.fst = Except.ok C ∧
       s3.snd.responses = []) ∧
    (MultipleResponsesMatch.NextResponse
        { request := q2, responses := [], matchedRequests := archived2 } req
      = (Except.error MatchError.noNextResponseFound,
         { request := q2, responses := [], matchedRequests := archived2 })) ∧
    ((MultipleResponsesMatch.NextResponse
        { request := q3, responses := head :: tail, matchedRequests := archived3 } req2).fst
      = Except.ok head ∧
     (MultipleResponsesMatch.NextResponse
        { request := q3, responses := head :: tail, matchedRequests := archived3 } req2).snd.responses
      = tail) :=
  ⟨⟨rfl, rfl, rfl, rfl⟩, rfl, rfl, rfl⟩

/-- Claim C9: the history accessor returns, on every call, clones whose bodies
are exactly the archived bodies of the first match whose pattern equals the
query, it leaves the registry state untouched (so a second call returns the
same list), and every returned clone carries a full, independently readable
body stream. -/
theorem getMatchesForRequest_idempotent_history (ms : List RegMatch) (r : Request)
    (i : Nat) (hi : i < ms.length)
    (hEq : (ms.get ⟨i, hi⟩).request.Equal r = true)
    (hFirst : ∀ j (hj : j < i),
      (ms.get ⟨j, Nat.lt_trans hj hi⟩).request.Equal r = false) :
    (GetMatchesForRequest ms r).snd = ms ∧
    (GetMatchesForRequest (GetMatchesForRequest ms r).snd r).fst
      = (GetMatchesForRequest ms r).fst ∧
    (GetMatchesForRequest ms r).fst = (ms.get ⟨i, hi⟩).archived ∧
    (∀ c ∈ (GetMatchesForRequest ms r).fst,
      readAll c = (c.body, { c with body := "" })) := by
  refine ⟨GetMatchesForRequest_snd ms r, ?_, GetMatchesForRequest_fst ms r i hi hEq hFirst,
    fun c _ => rfl⟩
  rw [GetMatchesForRequest_snd ms r]

/-- Witness for claim C9: a registry with one archived request whose body is
the string hello; both accessor calls return that archived copy with its full
body readable. -/
theorem getMatchesForRequest_idempotent_history_witness :
    (let p : Request := (NewRequest.WithMethod "GET").WithName "mock request #1"
     let a : HTTPRequest := { url := "/u", method := "GET", headers := [], body := "hello" }
     let ms : List RegMatch := [{ request := p, responses := [], archived := [a] }]
     (GetMatchesForRequest ms p).snd = ms ∧
     (GetMatchesForRequest (GetMatchesForRequest ms p).snd p).fst
       = (GetMatchesForRequest ms p).fst ∧
     (GetMatchesForRequest ms p).fst = [a] ∧
     (∀ c ∈ (GetMatchesForRequest ms p).fst,
       readAll c = (c.body, { c with body := "" }))) := by
  have h := getMatchesForRequest_idempotent_history
    [{ request := (NewRequest.WithMethod "GET").WithName "mock request #1",
       responses := [],
       archived := [{ url := "/u", method := "GET", headers := [], body := "hello" }] }]
    ((NewRequest.WithMethod "GET").WithName "mock request #1")
    0 (by decide) (by decide) (fun j hj => absurd hj (Nat.not_lt_zero j))
  exact h

/-- Claim C10: a pattern whose only specified dimension is the body rejects a
request with different body bytes, yet produces no miss at all: the matcher
returns false with an empty miss list and the consumed body stream, and the
resulting fatal dispatch answers 500 with an empty miss log. -/
theorem bodyOnlyMismatch_silent (rmatch : String → String → Bool)
    (expectedBody : String) (r : HTTPRequest) (resp : Response) (nm : String)
    (h1 : expectedBody ≠ "") (h2 : r.body ≠ expectedBody) :
    doesRegisteredMatchMatchIncomingRequest rmatch
        ((NewRequest.WithBody expectedBody).WithName nm) r
      = (false, [], { r with body := "" }) ∧
    (handleRequest rmatch
        { regMatches := [{ request := (NewRequest.WithBody expectedBody).WithName nm,
                           responses := [resp], archived := [] }],
          misses := [] } r ResponseWriter.empty).fst.misses = [] ∧
    (handleRequest rmatch
        { regMatches := [{ request := (NewRequest.WithBody expectedBody).WithName nm,
                           responses := [resp], archived := [] }],
          misses := [] } r ResponseWriter.empty).snd.sentStatus = some 500 := by
  have hlen : expectedBody.length > 0 := by
    cases expectedBody with
    | mk data =>
      cases data with
      | nil => exact absurd rfl h1
      | cons c cs => exact Nat.succ_pos cs.length
  have hbody : ¬ (expectedBody = r.body) := fun h => h2 (Eq.symm h)
  have hneq : Request.Equal
      { name := nm, url := "", method := "", headers := [], body := expectedBody,
        urlAsRegex := ".+" }
      { name := "", url := "", method := "", headers := [], body := "",
        urlAsRegex := ".+" } = false := by
    have hD : decide (expectedBody = "") = false := decide_eq_false h1
    simp only [Request.Equal]
    rw [hD]
    simp
  have hmain : doesRegisteredMatchMatchIncomingRequest rmatch
      ((NewRequest.WithBody expectedBody).WithName nm) r
      = (false, [], { r with body := "" }) := by
    unfold doesRegisteredMatchMatchIncomingRequest
    simp only [Request.WithBody, Request.WithName, NewRequest, newRequestWithName]
    simp [hneq, hlen, readAll, hbody]
  refine ⟨hmain, ?_, ?_⟩ <;>
    simp [handleRequest, dispatchLoop, hmain, Why, writeHeader, headerSet, write,
      ResponseWriter.empty]

/-- Witness for claim C10: expected body x against incoming body y, with a
200 response queued; the matcher rejects silently and the dispatch answers a
500 whose miss log is empty. -/
theorem bodyOnlyMismatch_silent_witness :
    ("x" : String) ≠ "" ∧
    (HTTPRequest.mk "/u" "POST" [] "y").body ≠ "x" ∧
    doesRegisteredMatchMatchIncomingRequest rmatchEq
        ((NewRequest.WithBody "x").WithName "mock request #1")
        (HTTPRequest.mk "/u" "POST" [] "y")
      = (false, [], { HTTPRequest.mk "/u" "POST" [] "y" with body := "" }) := by
  refine ⟨by decide, by decide, ?_⟩
  exact (bodyOnlyMismatch_silent rmatchEq "x" (HTTPRequest.mk "/u" "POST" [] "y")
    OkResponse "mock request #1" (by decide) (by decide)).1

/-- Claim C1 (evaluation at the failing input): a pattern specifying the URL
slash-foo and the method POST matches an incoming GET request to slash-foo:
the matcher returns true with no misses as soon as the URL dimension passes,
although the method dimension fails, so the predicate is not the conjunction
over the specified dimensions that the claim states. -/
theorem matcher_not_conjunctive :
    (doesRegisteredMatchMatchIncomingRequest rmatchEq
        { name := "mock request #1", url := "/foo", method := "POST", headers := [],
          body := "", urlAsRegex := "/foo" }
        { url := "/foo", method := "GET", headers := [], body := "" }
      = (true, [], { url := "/foo", method := "GET", headers := [], body := "" })) ∧
    ({ name := "mock request #1", url := "/foo", method := "POST", headers := [],
       body := "", urlAsRegex := "/foo" } : Request).method
      ≠ ({ url := "/foo", method := "GET", headers := [], body := "" } : HTTPRequest).method :=
  ⟨rfl, by decide⟩

/-- Claim C4 (evaluation at the failing input): against a pattern whose URL
matches while the method and one required header both fail, the matcher
returns true with no misses instead of false with two misses; and even
without a URL dimension, a pattern whose method and required header both fail
still returns true, because the header loop appends its misses to the wrong
list and the emptiness test reads the never-extended headersMisses list. -/
theorem matcher_misses_incomplete :
    (doesRegisteredMatchMatchIncomingRequest rmatchEq
        { name := "mock request #2", url := "/foo", method := "POST",
          headers := [("Accept", "application/json")], body := "", urlAsRegex := "/foo" }
        { url := "/foo", method := "GET", headers := [], body := "" }
      = (true, [], { url := "/foo", method := "GET", headers := [], body := "" })) ∧
    (doesRegisteredMatchMatchIncomingRequest rmatchEq
        { name := "mock request #3", url := "", method := "POST",
          headers := [("Accept", "application/json")], body := "", urlAsRegex := ".+" }
        { url := "/foo", method := "GET", headers := [], body := "" }
      = (true, [], { url := "/foo", method := "GET", headers := [], body := "" })) :=
  ⟨rfl, rfl⟩

/-- Claim C5 (evaluation at the failing input): when no expectation matches,
the handler writes status 500, but the Content-Type header is set only after
WriteHeader has already fired, so the transmitted header set is empty and the
application/json entry stays in the local map; and the body is the plain
newline-joined miss text, not a JSON array. -/
theorem fatalResponse_not_json :
    (let p : Request := { name := "mock request #1", url := "", method := "POST",
                          headers := [], body := "", urlAsRegex := ".+" }
     let result := handleRequest rmatchEq
        { regMatches := [{ request := p, responses := [OkResponse], archived := [] }],
          misses := [] }
        { url := "/x", method := "GET", headers := [], body := "" }
        ResponseWriter.empty
     result.snd.sentStatus = some 500 ∧
     result.snd.sentHeaders = [] ∧
     result.snd.headers = [("Content-Type", "application/json")] ∧
     result.snd.body = "mock request #1 missed because the method does not match") :=
  ⟨rfl, rfl, rfl, rfl⟩

/-- Claim C6 (evaluation at the failing input): verifying consumption draws
the next response destructively: the first run over a registry holding one
unused response reports it and removes it from the queue, so a second run
reports nothing, while the claim demands an unchanged state and identical
reports. -/
theorem checkAllResponsesAreConsumed_destructive :
    (let m : RegMatch :=
      { request := { name := "mock request #1", url := "", method := "POST",
                     headers := [], body := "", urlAsRegex := ".+" },
        responses := [OkResponse], archived := [] }
     let run1 := CheckAllResponsesAreConsumed [m]
     let run2 := CheckAllResponsesAreConsumed run1.snd
     run1.fst = ["request mock request #1 has httpregistry.OkResponse as unused response"] ∧
     run1.snd = [{ m with responses := [] }] ∧
     run1.snd ≠ [m] ∧
     run2.fst = []) :=
  ⟨rfl, rfl, by decide, rfl⟩

/-- Claim C7 (evaluation at the failing input): the body comparison inside the
matcher reads the incoming stream through io.ReadAll and never restores it:
after evaluating a body-specified pattern against a request with body y, the
request leaves with an empty stream, and a subsequent read yields nothing
rather than the original bytes. -/
theorem bodyInspection_destructive :
    (let verdict := doesRegisteredMatchMatchIncomingRequest rmatchEq
        { name := "mock request #1", url := "", method := "", headers := [],
          body := "x", urlAsRegex := ".+" }
        { url := "/u", method := "POST", headers := [], body := "y" }
     verdict.snd.snd.body = "" ∧
     (readAll verdict.snd.snd).fst = "" ∧
     ({ url := "/u", method := "POST", headers := [], body := "y" } : HTTPRequest).body
       = "y") :=
  ⟨rfl, rfl, rfl⟩

/-- Counterexample to claim C8: allocate a fresh request r, then call
WithHeader on it; afterwards the headers visible through r itself are no
longer empty, because the helper wrote through the map shared between r and
the returned value, so r is not left observationally unchanged. -/
theorem withHeader_mutates_receiver :
    (let alloc := bNewRequest { maps := [] }
     let upd := bWithHeader alloc.snd alloc.fst "a" "b"
     headersVisible alloc.snd alloc.fst = [] ∧
     headersVisible upd.snd alloc.fst = [("a", "b")]) :=
  ⟨rfl, rfl⟩

/-- Auxiliary: getD after set at the same in-bounds index yields the written
value. -/
theorem list_getD_set_self {α : Type} (l : List α) (i : Nat) (a d : α)
    (h : i < l.length) : (l.set i a).getD i d = a := by
  induction l generalizing i with
  | nil => exact absurd h (Nat.not_lt_zero i)
  | cons x xs ih =>
      cases i with
      | zero => rfl
      | succ j => exact ih j (Nat.lt_of_succ_lt_succ h)

/-- Claim C8 as amended: WithHeader returns a new Request value carrying the
same headers-map reference as the receiver; the bindings visible through the
receiver afterwards gain the new entry (shared mutation, observable through
the receiver and through every value sharing the map), and the returned value
sees exactly the same map; helpers that set scalar fields, such as WithMethod,
are pure value updates that leave the heap and the visible headers of the
receiver untouched. -/
theorem withHeader_shared_map (h : Heap) (r : BRequest) (k v m : String)
    (href : r.headersRef < h.maps.length) :
    (bWithHeader h r k v).fst.headersRef = r.headersRef ∧
    headersVisible (bWithHeader h r k v).snd r
      = setAssoc (headersVisible h r) k v ∧
    headersVisible (bWithHeader h r k v).snd (bWithHeader h r k v).fst
      = headersVisible (bWithHeader h r k v).snd r ∧
    bWithMethod r m = { r with method := m } ∧
    headersVisible h (bWithMethod r m) = headersVisible h r := by
  refine ⟨rfl, ?_, rfl, rfl, rfl⟩
  exact list_getD_set_self h.maps r.headersRef (setAssoc (headersVisible h r) k v) [] href

/-- Witness for the amended claim C8: one allocated map slot; adding header a
with value b through WithHeader makes the binding visible through the original
request. -/
theorem withHeader_shared_map_witness :
    (0 : Nat) < ({ maps := [[]] } : Heap).maps.length ∧
    headersVisible
        (bWithHeader { maps := [[]] }
          { name := "", url := "", method := "", headersRef := 0, body := "",
            urlAsRegex := ".+" } "a" "b").snd
        { name := "", url := "", method := "", headersRef := 0, body := "",
          urlAsRegex := ".+" }
      = setAssoc (headersVisible { maps := [[]] }
          { name := "", url := "", method := "", headersRef := 0, body := "",
            urlAsRegex := ".+" }) "a" "b" :=
  ⟨by decide,
    (withHeader_shared_map { maps := [[]] }
      { name := "", url := "", method := "", headersRef := 0, body := "",
        urlAsRegex := ".+" } "a" "b" "GET" (by decide)).2.1⟩

/-- A pattern that specifies no body never touches the incoming body stream:
the matcher hands the request back unchanged. -/
theorem emptyString_length_not_pos : ¬ (("" : String).length > 0) := by decide

theorem matcher_preserves_request (rm : String → String → Bool) (p : Request)
    (r : HTTPRequest) (hb : p.body = "") :
    (doesRegisteredMatchMatchIncomingRequest rm p r).snd.snd = r := by
  unfold doesRegisteredMatchMatchIncomingRequest
  split
  · rfl
  · simp only [hb]
    split
    · rfl
    · split
      · rfl
      · split
        next heq =>
          rw [if_neg emptyString_length_not_pos] at heq
          simp at heq
        next heq =>
          rw [if_neg emptyString_length_not_pos] at heq
          injection heq with h1 h2
          subst h2
          split
          · split <;> rfl
          · rfl

/-- The dispatch loop serves the head response of the first expectation in
order that matches (purely, the request being left intact by every body-free
pattern) and still has a response, and earlier matching-but-exhausted
expectations each contribute an out-of-responses miss without stopping the
walk. -/
theorem dispatchLoop_first_eligible (rm : String → String → Bool) (r : HTTPRequest) :
    ∀ (ms : List RegMatch) (w : ResponseWriter) (i : Nat) (hi : i < ms.length),
    (∀ m ∈ ms, m.request.body = "") →
    matchesIncomingRequest rm (ms.get ⟨i, hi⟩).request r = true →
    (ms.get ⟨i, hi⟩).responses ≠ [] →
    (∀ j (hj : j < i),
      matchesIncomingRequest rm (ms.get ⟨j, Nat.lt_trans hj hi⟩).request r = true →
      (ms.get ⟨j, Nat.lt_trans hj hi⟩).responses = []) →
    ∃ res rest,
      (ms.get ⟨i, hi⟩).responses = res :: rest ∧
      (dispatchLoop rm ms r w).snd.snd.snd.fst = serveResponse res w ∧
      (dispatchLoop rm ms r w).snd.snd.snd.snd = true ∧
      (∀ j (hj : j < i),
        matchesIncomingRequest rm (ms.get ⟨j, Nat.lt_trans hj hi⟩).request r = true →
        newMiss (ms.get ⟨j, Nat.lt_trans hj hi⟩).request WhyMissed.outOfResponses
          ∈ (dispatchLoop rm ms r w).snd.fst) := by
  intro ms
  induction ms with
  | nil => exact fun w i hi => absurd hi (Nat.not_lt_zero i)
  | cons m rest ih =>
    intro w i hi hnb hmatch havail hfirst
    have hmb : m.request.body = "" := hnb m (List.mem_cons_self m rest)
    have hpres : (doesRegisteredMatchMatchIncomingRequest rm m.request r).snd.snd = r :=
      matcher_preserves_request rm m.request r hmb
    cases i with
    | zero =>
      simp only [List.get] at hmatch havail
      obtain ⟨res, restR, hresp⟩ := List.exists_cons_of_ne_nil havail
      refine ⟨res, restR, by simpa [List.get] using hresp, ?_, ?_,
        fun j hj => absurd hj (Nat.not_lt_zero j)⟩ <;>
      · unfold dispatchLoop
        simp only [matchesIncomingRequest] at hmatch
        simp [hmatch, RegMatch.NextResponse, hresp]
    | succ j =>
      have hj : j < rest.length := Nat.lt_of_succ_lt_succ hi
      have hmatch2 : matchesIncomingRequest rm (rest.get ⟨j, hj⟩).request r = true := by
        simpa [List.get] using hmatch
      have havail2 : (rest.get ⟨j, hj⟩).responses ≠ [] := by
        simpa [List.get] using havail
      have hfirst2 : ∀ k (hk : k < j),
          matchesIncomingRequest rm (rest.get ⟨k, Nat.lt_trans hk hj⟩).request r = true →
          (rest.get ⟨k, Nat.lt_trans hk hj⟩).responses = [] := by
        intro k hk hm
        have := hfirst (k + 1) (Nat.succ_lt_succ hk) (by simpa [List.get] using hm)
        simpa [List.get] using this
      obtain ⟨res, restR, hresp, hwriter, hserved, hmiss⟩ :=
        ih w j hj (fun x hx => hnb x (List.mem_cons_of_mem m hx)) hmatch2 havail2 hfirst2
      by_cases hm0 : matchesIncomingRequest rm m.request r = true
      · -- the head matches but must be exhausted
        have hempty : m.responses = [] := by
          simpa [List.get] using hfirst 0 (Nat.succ_pos j) (by simpa [List.get] using hm0)
        simp only [matchesIncomingRequest] at hm0
        refine ⟨res, restR, by simpa [List.get] using hresp, ?_, ?_, ?_⟩
        · unfold dispatchLoop
          simp [hm0, RegMatch.NextResponse, hempty, hpres, hwriter]
        · unfold dispatchLoop
          simp [hm0, RegMatch.NextResponse, hempty, hpres, hserved]
        · intro k hk hmk
          unfold dispatchLoop
          cases k with
          | zero =>
            simp [hm0, RegMatch.NextResponse, hempty, hpres]
          | succ l =>
            have hl : l < j := Nat.lt_of_succ_lt_succ hk
            have := hmiss l hl (by simpa [List.get] using hmk)
            simp only [List.get]
            simp [hm0, RegMatch.NextResponse, hempty, hpres]
            exact Or.inr (by simpa [List.get] using this)
      · -- the head does not match: its misses are appended and the walk goes on
        have hm0f : (doesRegisteredMatchMatchIncomingRequest rm m.request r).fst = false := by
          simpa [matchesIncomingRequest] using Bool.not_eq_true _ |>.mp hm0
        refine ⟨res, restR, by simpa [List.get] using hresp, ?_, ?_, ?_⟩
        · unfold dispatchLoop
          simp [hm0f, hpres, hwriter]
        · unfold dispatchLoop
          simp [hm0f, hpres, hserved]
        · intro k hk hmk
          unfold dispatchLoop
          cases k with
          | zero =>
            exact absurd (by simpa [List.get] using hmk) hm0
          | succ l =>
            have hl : l < j := Nat.lt_of_succ_lt_succ hk
            have := hmiss l hl (by simpa [List.get] using hmk)
            simp only [List.get]
            simp [hm0f, hpres]
            exact Or.inr (by simpa [List.get] using this)

/-- Counterexample to claim C2 as stated: with two body-specified expectations
registered in order, the first (expecting body x) consumes the incoming body
stream while failing, so the second (expecting body y, with a 201 response
available) no longer sees the bytes; the dispatch falls through to the fatal
500 even though the second expectation is the first one whose pattern matches
the request and whose source has a response available. -/
theorem dispatch_precedence_counterexample :
    (let p1 : Request := { name := "mock request #1", url := "", method := "",
                           headers := [], body := "x", urlAsRegex := ".+" }
     let p2 : Request := { name := "mock request #2", url := "", method := "",
                           headers := [], body := "y", urlAsRegex := ".+" }
     let created : Response := (newResponseWithName "mock response #1").WithStatus 201
     let ms : List RegMatch :=
       [{ request := p1, responses := [OkResponse], archived := [] },
        { request := p2, responses := [created], archived := [] }]
     let r : HTTPRequest := { url := "/u", method := "POST", headers := [], body := "y" }
     matchesIncomingRequest rmatchEq p2 r = true ∧
     matchesIncomingRequest rmatchEq p1 r = false ∧
     (handleRequest rmatchEq { regMatches := ms, misses := [] } r
        ResponseWriter.empty).snd.sentStatus = some 500 ∧
     (serveResponse created ResponseWriter.empty).sentStatus = some 201) :=
  ⟨rfl, rfl, rfl, rfl⟩

/-- Claim C2 as amended: for every registry whose registered patterns specify
no body (so that predicate evaluation leaves the shared body stream intact)
and every dispatched request, the response written to the client comes from
the first expectation in registration order whose pattern matches the request
and whose response source still has a response available; every earlier
matching but exhausted expectation contributes an out-of-responses miss to the
dispatch log and does not stop the iteration. -/
theorem dispatch_precedence_body_free (rm : String → String → Bool)
    (ms : List RegMatch) (oldMisses : List Miss) (r : HTTPRequest)
    (w : ResponseWriter) (i : Nat) (hi : i < ms.length)
    (hnb : ∀ m ∈ ms, m.request.body = "")
    (hmatch : matchesIncomingRequest rm (ms.get ⟨i, hi⟩).request r = true)
    (havail : (ms.get ⟨i, hi⟩).responses ≠ [])
    (hfirst : ∀ j (hj : j < i),
      matchesIncomingRequest rm (ms.get ⟨j, Nat.lt_trans hj hi⟩).request r = true →
      (ms.get ⟨j, Nat.lt_trans hj hi⟩).responses = []) :
    ∃ res rest,
      (ms.get ⟨i, hi⟩).responses = res :: rest ∧
      (handleRequest rm { regMatches := ms, misses := oldMisses } r w).snd
        = serveResponse res w ∧
      (∀ j (hj : j < i),
        matchesIncomingRequest rm (ms.get ⟨j, Nat.lt_trans hj hi⟩).request r = true →
        newMiss (ms.get ⟨j, Nat.lt_trans hj hi⟩).request WhyMissed.outOfResponses
          ∈ (handleRequest rm { regMatches := ms, misses := oldMisses } r w).fst.misses) := by
  obtain ⟨res, rest, hresp, hwriter, hserved, hmiss⟩ :=
    dispatchLoop_first_eligible rm r ms w i hi hnb hmatch havail hfirst
  refine ⟨res, rest, hresp, ?_, ?_⟩
  · unfold handleRequest
    simp only [hserved, if_true]
    exact hwriter
  · intro j hj hmj
    unfold handleRequest
    simp only [hserved, if_true]
    exact hmiss j hj hmj

/-- Witness for the amended claim C2: a register of two expectations with the
same body-free POST pattern, the first exhausted, the second holding a 201
response; the dispatch serves the 201 from the second and logs an
out-of-responses miss for the first. -/
theorem dispatch_precedence_body_free_witness :
    (let p : Request := { name := "mock request #1", url := "", method := "POST",
                          headers := [], body := "", urlAsRegex := ".+" }
     let created : Response := (newResponseWithName "mock response #1").WithStatus 201
     let ms : List RegMatch :=
       [{ request := p, responses := [], archived := [] },
        { request := p, responses := [created], archived := [] }]
     let r : HTTPRequest := { url := "/u", method := "POST", headers := [], body := "" }
     ∃ res rest,
       (ms.get ⟨1, by decide⟩).responses = res :: rest ∧
       (handleRequest rmatchEq { regMatches := ms, misses := [] } r
          ResponseWriter.empty).snd = serveResponse res ResponseWriter.empty ∧
       (∀ j (hj : j < 1),
         matchesIncomingRequest rmatchEq
           (ms.get ⟨j, Nat.lt_trans hj (by decide)⟩).request r = true →
         newMiss (ms.get ⟨j, Nat.lt_trans hj (by decide)⟩).request
             WhyMissed.outOfResponses
           ∈ (handleRequest rmatchEq { regMatches := ms, misses := [] } r
               ResponseWriter.empty).fst.misses)) :=
  dispatch_precedence_body_free rmatchEq
    [{ request := { name := "mock request #1", url := "", method := "POST",
                    headers := [], body := "", urlAsRegex := ".+" },
       responses := [], archived := [] },
     { request := { name := "mock request #1", url := "", method := "POST",
                    headers := [], body := "", urlAsRegex := ".+" },
       responses := [(newResponseWithName "mock response #1").WithStatus 201],
       archived := [] }]
    [] { url := "/u", method := "POST", headers := [], body := "" }
    ResponseWriter.empty 1 (by decide) (by decide) (by decide) (by decide)
    (by decide)

end Httpregistry
